import Mathlib

/-!
Shallow embedding of the yapf load-balancing / health-tracking core
(src/load_balancer/mod.rs, strategy.rs, helthcheck.rs, background.rs and
src/proxy.rs), with theorems checking the specification's claims against it.

Machine integers (u16 weights, usize counters and cursors) are modelled as
Nat; wrap-around of the 64-bit atomic cursors and of the usize health
counter is unreachable in any execution the claims consider and is not
modelled.  The one observable machine-width cast, the `as u16` cast in
LoadBalancer::next, is modelled explicitly with % 65536.  Interior
mutability (ArcSwap, atomics) becomes explicit state passing, and network
probes, the upstream client, random draws and clock reads become oracle
arguments.
-/

namespace Yapf

/-- Backend (mod.rs): one upstream endpoint, an address plus a u16 weight
(default 100).  Immutable once constructed. -/
structure Backend where
  addr : String
  weight : Nat
  deriving DecidableEq, Repr

/-- HealthInner (helthcheck.rs): healthy flag plus the consecutive
disagreeing-observation counter.  In Rust the record sits behind an ArcSwap
(atomic whole-record swap); the pure model passes the record by value, one
observe call performing one load and at most one store. -/
structure Health where
  healthy : Bool
  health_counter : Nat
  deriving DecidableEq, Repr

/-- Health::default (helthcheck.rs): healthy, counter 0. -/
def Health.start : Health := { healthy := true, health_counter := 0 }

/-- Health::observe_health (helthcheck.rs lines 136-158).  Returns the new
record together with whether the healthy flag flipped (the Rust return
value). -/
def Health.observe_health (h : Health) (healthy : Bool) (flip_threshold : Nat) :
    Health × Bool :=
  if h.healthy ≠ healthy then
    -- opposite health observed: increment the counter, flip on reaching the
    -- threshold (new_health.health_counter >= flip_threshold)
    let c := h.health_counter + 1
    if flip_threshold ≤ c then ({ healthy := healthy, health_counter := 0 }, true)
    else ({ healthy := h.healthy, health_counter := c }, false)
  else if 0 < h.health_counter then
    -- same health observed: reset a non-zero counter
    ({ healthy := h.healthy, health_counter := 0 }, false)
  else
    -- no store at all in Rust; the record is unchanged
    (h, false)

/-- The health table of Backends (mod.rs): in Rust an
ArcSwap(HashMap(u64, Health)) keyed by Backend::hash_key (a 64-bit
DefaultHasher digest of the fields).  The map itself is created only in
Backends::new and never swapped afterwards; only the Health values inside it
change.  The model keys by the Backend value itself, i.e. hash collisions
between distinct backends are not modelled, and uses an association list. -/
def lookupHealth : List (Backend × Health) → Backend → Option Health
  | [], _ => none
  | (k, v) :: rest, b => if k = b then some v else lookupHealth rest b

/-- Replacing the Health value stored under a key (the effect of the
ArcSwap store inside Health::observe_health on the table entry). -/
def updateHealth (b : Backend) (f : Health → Health) :
    List (Backend × Health) → List (Backend × Health)
  | [] => []
  | (k, v) :: rest =>
    (k, if k = b then f v else v) :: updateHealth b f rest

/-- The HealthCheck capability (helthcheck.rs trait HealthCheck).  The
check(backend) probe performs network IO, so a health-check run takes the
probe outcomes as an oracle (Backend → Bool, true = the probe returned Ok);
health_threshold(success) stays as configuration. -/
structure HealthCheckCfg where
  health_threshold : Bool → Nat

/-- Backends (mod.rs lines 42-105): the fixed backend list, the optional
HealthCheck and the health table. -/
structure Backends where
  health_check : Option HealthCheckCfg
  backends : List Backend
  health : List (Backend × Health)

/-- Backends::new: no health check, one default (healthy) Health per backend. -/
def Backends.new (bs : List Backend) : Backends :=
  { health_check := none
    backends := bs
    health := bs.map fun b => (b, Health.start) }

/-- Backends::set_health_check. -/
def Backends.set_health_check (B : Backends) (hc : HealthCheckCfg) : Backends :=
  { B with health_check := some hc }

/-- Backends::check_and_report: run the probe, then observe_health on the
table entry for the backend's key if one exists (absent key: no update).
The println on a flip is a side effect only. -/
def Backends.check_and_report (b : Backend) (hc : HealthCheckCfg)
    (check : Backend → Bool) (t : List (Backend × Health)) :
    List (Backend × Health) :=
  let success := check b
  match lookupHealth t b with
  | none => t
  | some _ =>
      updateHealth b
        (fun h => (h.observe_health success (hc.health_threshold success)).1) t

/-- Backends::run_health_check: no-op without a configured HealthCheck, else
check_and_report for every backend in pool order. -/
def Backends.run_health_check (B : Backends) (check : Backend → Bool) : Backends :=
  match B.health_check with
  | none => B
  | some hc =>
      { B with
        health := B.backends.foldl
          (fun t b => Backends.check_and_report b hc check t) B.health }

/-- Backends::is_healthy (mod.rs lines 99-104):
health.load().get(key).map_or(health_check.is_none(), healthy). -/
def Backends.is_healthy (B : Backends) (b : Backend) : Bool :=
  match lookupHealth B.health b with
  | some h => h.healthy
  | none => B.health_check.isNone

/-- The mutations the public API applies to a Backends value after
construction: set_health_check (configuration) and run_health_check (with
its probe-outcome oracle).  A reachable Backends state is Backends.new
followed by any sequence of these. -/
inductive BackendsOp where
  | setHealthCheck (hc : HealthCheckCfg)
  | runCheck (check : Backend → Bool)

def Backends.applyOp (B : Backends) : BackendsOp → Backends
  | .setHealthCheck hc => B.set_health_check hc
  | .runCheck check => B.run_health_check check

def Backends.applyOps (B : Backends) (ops : List BackendsOp) : Backends :=
  ops.foldl Backends.applyOp B

/-- No set_health_check ever happened: no HealthCheck was ever configured. -/
def neverConfigured (ops : List BackendsOp) : Prop :=
  ∀ op ∈ ops, ∀ hc, op ≠ BackendsOp.setHealthCheck hc

/-- Strategy (strategy.rs trait Strategy): build plus get_next.  The atomic
cursor mutation inside get_next becomes explicit state passing: one call
returns the selected backend and the successor strategy state. -/
class Strategy (σ : Type) where
  build : List Backend → σ
  get_next : σ → Option Backend × σ

/-- RoundRobin (strategy.rs lines 11-33): the backend list plus an
AtomicUsize cursor. -/
structure RoundRobin where
  backends : List Backend
  current : Nat
  deriving DecidableEq, Repr

def RoundRobin.build (bs : List Backend) : RoundRobin :=
  { backends := bs, current := 0 }

/-- RoundRobin::get_next: none for the empty pool, else fetch_add on the
cursor and backends[old_cursor % len]. -/
def RoundRobin.get_next (s : RoundRobin) : Option Backend × RoundRobin :=
  if s.backends.isEmpty then (none, s)
  else (s.backends.get? (s.current % s.backends.length),
    { s with current := s.current + 1 })

instance : Strategy RoundRobin :=
  { build := RoundRobin.build, get_next := RoundRobin.get_next }

/-- One pass of the compute_weighted loop over the indices 1..len-1 at
current weight cw: each such index whose weight is at least cw is pushed. -/
def wrrRound (weights : List Nat) (cw : Nat) : List Nat :=
  (List.range weights.length).filter fun j => decide (j ≠ 0 ∧ cw ≤ weights.getD j 0)

/-- The precompute loop of WeightedRoundRobin::compute_weighted (strategy.rs
lines 81-96), unrolled one full index cycle per recursion step: the loop
starts at index 0 and increments before its first test, so indices 1..len-1
are visited at current weight cw, and index 0 is visited only after cw has
been decremented by the gcd (saturating; the loop breaks, before the index-0
weight test, when the decremented weight reaches 0).  The g = 0 guard only
makes the recursion total: compute_weighted reaches this loop with a
positive gcd, and the Rust loop would not terminate otherwise. -/
def wrrLoop (weights : List Nat) (g : Nat) (cw : Nat) : List Nat :=
  if g = 0 ∨ cw = 0 then []
  else
    wrrRound weights cw ++
      (if cw - g = 0 then []
       else (if cw - g ≤ weights.getD 0 0 then [0] else []) ++ wrrLoop weights g (cw - g))
termination_by cw
decreasing_by omega

/-- WeightedRoundRobin::compute_weighted (strategy.rs lines 65-98):
max_weight and gcd over all weights; all weights equal gives every index
once; otherwise the precompute loop starting at cw = max_weight. -/
def compute_weighted (backends : List Backend) : List Nat :=
  let weights := backends.map Backend.weight
  let max_weight := weights.foldl Nat.max 0
  let g := weights.foldl Nat.gcd 0
  if weights.all fun x => x == max_weight then List.range backends.length
  else wrrLoop weights g max_weight

/-- WeightedRoundRobin (strategy.rs lines 57-119): the backend list, the
precomputed weighted index sequence and an atomic cursor into it. -/
structure WeightedRoundRobin where
  backends : List Backend
  weighted : List Nat
  current_index : Nat
  deriving DecidableEq, Repr

def WeightedRoundRobin.build (bs : List Backend) : WeightedRoundRobin :=
  { backends := bs, weighted := compute_weighted bs, current_index := 0 }

/-- WeightedRoundRobin::get_next: none for the empty pool, else fetch_add on
the cursor and backends[weighted[old_cursor % weighted.len]].  (For a
non-empty pool whose weighted sequence is empty the Rust old_cursor % 0 is a
panic; the model's getD is total there.  No claim reaches that state.) -/
def WeightedRoundRobin.get_next (s : WeightedRoundRobin) :
    Option Backend × WeightedRoundRobin :=
  if s.backends.isEmpty then (none, s)
  else (s.backends.get? (s.weighted.getD (s.current_index % s.weighted.length) 0),
    { s with current_index := s.current_index + 1 })

instance : Strategy WeightedRoundRobin :=
  { build := WeightedRoundRobin.build, get_next := WeightedRoundRobin.get_next }

/-- The k-th get_next call (0-indexed) of a strategy state machine started
in state s. -/
def nthNext {σ : Type} (step : σ → Option Backend × σ) (s : σ) : Nat → Option Backend
  | 0 => (step s).1
  | k + 1 => nthNext step (step s).2 k

/-- Model of the external crate rand_distr's WeightedAliasIndex at its
documented contract: construction rejects an empty vector and a zero total
weight, and a draw returns index i with probability weight i / total.  The
draw is modelled as the inverse-CDF lookup of a uniform r < total, which
realizes exactly that distribution; the alias tables are an O(1)
representation of the same distribution and are not reproduced (nor are the
crate's overflow checks, vacuous for u16 weights here). -/
structure WeightedAliasIndex where
  weights : List Nat
  deriving DecidableEq, Repr

inductive WeightedError where
  | noItem
  | allWeightsZero
  deriving DecidableEq, Repr

def weightedAliasIndexNew (weights : List Nat) :
    Except WeightedError WeightedAliasIndex :=
  if weights.isEmpty then .error .noItem
  else if weights.foldl (· + ·) 0 = 0 then .error .allWeightsZero
  else .ok { weights := weights }

/-- Inverse-CDF draw: the index whose cumulative-weight interval contains r. -/
def sampleIndex (weights : List Nat) (r : Nat) : Nat :=
  match weights with
  | [] => 0
  | w :: rest => if r < w then 0 else sampleIndex rest (r - w) + 1

/-- WeightedRandom (strategy.rs lines 121-144).  Strategy::build has no
fallible return in Rust: the code unwraps the WeightedAliasIndex
constructor, so the constructor's error case is a construction-time panic,
modelled as the Except.error outcome. -/
structure WeightedRandom where
  backends : List Backend
  weights : WeightedAliasIndex
  deriving DecidableEq, Repr

def WeightedRandom.build (bs : List Backend) :
    Except WeightedError WeightedRandom :=
  (weightedAliasIndexNew (bs.map Backend.weight)).map fun w =>
    { backends := bs, weights := w }

/-- WeightedRandom::get_next, with the thread-rng draw passed as the uniform
oracle r. -/
def WeightedRandom.get_next (s : WeightedRandom) (r : Nat) : Option Backend :=
  if s.backends.isEmpty then none
  else s.backends.get? (sampleIndex s.weights.weights r)

/-- The loop body of LoadBalancer::select_with (mod.rs lines 143-153) over
an arbitrary stepping function: up to n get_next calls, returning early at
the first healthy candidate, returning none at a none from the strategy. -/
def selectLoop {σ : Type} (step : σ → Option Backend × σ) (healthy : Backend → Bool) :
    Nat → σ → Option Backend
  | 0, _ => none
  | n + 1, s =>
    match step s with
    | (none, _) => none
    | (some b, s') => if healthy b then some b else selectLoop step healthy n s'

/-- selectLoop instrumented with the number of get_next calls performed. -/
def selectLoopCalls {σ : Type} (step : σ → Option Backend × σ)
    (healthy : Backend → Bool) : Nat → σ → Nat
  | 0, _ => 0
  | n + 1, s =>
    match step s with
    | (none, _) => 1
    | (some b, s') =>
      if healthy b then 1 else selectLoopCalls step healthy n s' + 1

/-- The first n candidates the strategy produces from state s, truncated at
the first none. -/
def selectCandidates {σ : Type} (step : σ → Option Backend × σ) :
    Nat → σ → List Backend
  | 0, _ => []
  | n + 1, s =>
    match step s with
    | (none, _) => []
    | (some b, s') => b :: selectCandidates step n s'

/-- LoadBalancer (mod.rs lines 107-158). -/
structure LoadBalancer (σ : Type) [Strategy σ] where
  strategy : σ
  backends : Backends
  health_check_interval : Option Nat

/-- LoadBalancer::new. -/
def LoadBalancer.new {σ : Type} [Strategy σ] (bs : List Backend) : LoadBalancer σ :=
  { strategy := Strategy.build bs
    backends := Backends.new bs
    health_check_interval := none }

/-- LoadBalancer::select_with (mod.rs lines 143-153). -/
def LoadBalancer.select_with {σ : Type} [Strategy σ] (lb : LoadBalancer σ)
    (max_iterations : Nat) : Option Backend :=
  selectLoop Strategy.get_next (fun b => lb.backends.is_healthy b)
    max_iterations lb.strategy

/-- LoadBalancer::next = select_with(backends.len() as u16); the u16 cast is
the % 65536. -/
def LoadBalancer.next {σ : Type} [Strategy σ] (lb : LoadBalancer σ) :
    Option Backend :=
  lb.select_with (lb.backends.backends.length % 65536)

/-- The pipeline stages of process_request (proxy.rs), for the invocation
trace. -/
inductive Stage where
  | requestFilter
  | upstreamAddr
  | upstreamRequestFilter
  | forward
  | failToConnect
  | upstreamLatency
  | responseFilter
  deriving DecidableEq, Repr

/-- http response::Parts: the status plus the remaining header data, kept
opaque. -/
structure ResponseParts (ρ : Type) where
  status : Nat
  rest : ρ
  deriving DecidableEq, Repr

/-- Body (proxy_trait.rs): Either(Either(Empty, Full), Incoming). -/
inductive Body (β : Type) where
  | empty
  | full (bytes : β)
  | incoming (payload : β)
  deriving DecidableEq, Repr

structure Response (β ρ : Type) where
  parts : ResponseParts ρ
  body : Body β
  deriving DecidableEq, Repr

/-- http request::Parts: the uri plus the remaining data, kept opaque. -/
structure RequestParts (υ θ : Type) where
  uri : υ
  rest : θ
  deriving DecidableEq, Repr

/-- Response::builder().status(status).body(empty_body()): default parts
apart from the status. -/
def errorResponse {β ρ : Type} [Inhabited ρ] (status : Nat) : Response β ρ :=
  { parts := { status := status, rest := default }, body := .empty }

/-- The Proxy capability (proxy_trait.rs): the per-request filter-chain
hooks.  Mutable-reference receivers become value-in/value-out, async hooks
are pure functions of their inputs, and a Result short-circuit becomes an
Option Response next to the updated context. -/
structure Proxy (Ctx υ θ β ρ ε : Type) where
  new_ctx : Ctx
  request_filter : RequestParts υ θ → Ctx → Ctx × Option (Response β ρ)
  upstream_addr : RequestParts υ θ → Ctx → Ctx × Option υ
  upstream_request_filter : RequestParts υ θ → Ctx → RequestParts υ θ × Ctx
  fail_to_connect : Ctx → υ → ε → Ctx × Option (Response β ρ)
  upstream_latency : ResponseParts ρ → Nat → Ctx → Ctx
  response_filter : ResponseParts ρ → Ctx → ResponseParts ρ × Ctx × Option (Response β ρ)

/-- process_request (proxy.rs lines 46-122), with the upstream client and
the measured latency as oracles.  Returns the response sent downstream and
the pipeline stages invoked, in order.  503 is StatusCode::SERVICE_UNAVAILABLE,
500 is StatusCode::INTERNAL_SERVER_ERROR. -/
def process_request {Ctx υ θ β ρ ε : Type} [Inhabited ρ]
    (p : Proxy Ctx υ θ β ρ ε)
    (client : RequestParts υ θ → Except ε (ResponseParts ρ × β))
    (latency : Nat) (request : RequestParts υ θ) :
    Response β ρ × List Stage :=
  let ctx := p.new_ctx
  match p.request_filter request ctx with
  | (_, some response) => (response, [.requestFilter])
  | (ctx, none) =>
    match p.upstream_addr request ctx with
    | (_, none) => (errorResponse 503, [.requestFilter, .upstreamAddr])
    | (ctx, some upstream_addr) =>
      let request := { request with uri := upstream_addr }
      match p.upstream_request_filter request ctx with
      | (request, ctx) =>
        match client request with
        | .error err =>
          match p.fail_to_connect ctx upstream_addr err with
          | (_, some response) =>
            (response, [.requestFilter, .upstreamAddr, .upstreamRequestFilter,
              .forward, .failToConnect])
          | (_, none) =>
            (errorResponse 500, [.requestFilter, .upstreamAddr,
              .upstreamRequestFilter, .forward, .failToConnect])
        | .ok (parts, payload) =>
          let ctx := p.upstream_latency parts latency ctx
          match p.response_filter parts ctx with
          | (parts, _, none) =>
            ({ parts := parts, body := .incoming payload },
              [.requestFilter, .upstreamAddr, .upstreamRequestFilter, .forward,
                .upstreamLatency, .responseFilter])
          | (_, _, some response) =>
            (response, [.requestFilter, .upstreamAddr, .upstreamRequestFilter,
              .forward, .upstreamLatency, .responseFilter])

/-- Duration::from_secs(u32::MAX), the stand-in interval while none is
configured (background.rs NEVER), in seconds. -/
def NEVER : Nat := 4294967295

/-- The BackgroundService::start loop (background.rs lines 43-66) over
discrete time in seconds: shutdown is the watch-channel value as a function
of time, fuel bounds how many iterations the model unfolds (none is
returned only on fuel exhaustion), and sleep_until(next_health_check)
resumes exactly at that instant.  Returns the number of run_health_check
invocations performed when the loop breaks. -/
def bgLoop (shutdown : Nat → Bool) (interval : Option Nat) :
    Nat → Nat → Nat → Nat → Option Nat
  | 0, _, _, _ => none
  | fuel + 1, now, next_health_check, checks =>
    if shutdown now then some checks
    else
      let (checks, next_health_check) :=
        if next_health_check ≤ now then (checks + 1, now + interval.getD NEVER)
        else (checks, next_health_check)
      if interval.isNone then some checks
      else bgLoop shutdown interval fuel next_health_check next_health_check checks

/-- Loop entry: now = Instant::now() = t0, next_health_check = now (run the
health check once immediately), zero checks so far. -/
def bgStart (shutdown : Nat → Bool) (interval : Option Nat) (t0 fuel : Nat) :
    Option Nat :=
  bgLoop shutdown interval fuel t0 t0 0

/-- A concrete LoadBalancer over a one-backend pool whose only backend is
marked unhealthy, with a health check configured (witness input for C2). -/
def lbAllUnhealthy : LoadBalancer RoundRobin :=
  { strategy := RoundRobin.build [Backend.mk "1.0.0.1" 100]
    backends :=
      { health_check := some { health_threshold := fun _ => 1 }
        backends := [Backend.mk "1.0.0.1" 100]
        health := [(Backend.mk "1.0.0.1" 100, { healthy := false, health_counter := 0 })] }
    health_check_interval := none }

/-- A concrete Proxy implementation whose upstream_addr yields no target
(witness input for C8). -/
def proxyNoRoute : Proxy Unit Nat Unit Unit Unit Unit :=
  { new_ctx := ()
    request_filter := fun _ c => (c, none)
    upstream_addr := fun _ c => (c, none)
    upstream_request_filter := fun r c => (r, c)
    fail_to_connect := fun c _ _ => (c, none)
    upstream_latency := fun _ _ c => c
    response_filter := fun pr c => (pr, c, none) }

/-! ## Theorems -/

/-- C3: the hysteresis state machine of Health::observe_health.  With
flip_threshold 1 a single disagreeing observation flips immediately; with
flip_threshold 2 one disagreeing observation (from a reset counter) does not
flip but two consecutive ones do; an agreeing observation resets the counter
to 0 without flipping; every flip resets the counter to 0. -/
theorem c3_observe_health_hysteresis (h : Health) (b : Bool) (t : Nat) :
    (h.healthy ≠ b → h.observe_health b 1 = ({ healthy := b, health_counter := 0 }, true)) ∧
    (h.healthy ≠ b → h.health_counter = 0 →
      (h.observe_health b 2).2 = false ∧
      (h.observe_health b 2).1 = { healthy := h.healthy, health_counter := 1 } ∧
      (h.observe_health b 2).1.observe_health b 2 =
        ({ healthy := b, health_counter := 0 }, true)) ∧
    (h.healthy = b →
      (h.observe_health b t).1.health_counter = 0 ∧ (h.observe_health b t).2 = false) ∧
    ((h.observe_health b t).2 = true → (h.observe_health b t).1.health_counter = 0) := by
  refine ⟨?_, ?_, ?_, ?_⟩
  · intro hne
    simp [Health.observe_health, hne]
  · intro hne hc
    simp [Health.observe_health, hne, hc]
  · intro heq
    rcases Nat.eq_zero_or_pos h.health_counter with h0 | h0
    · simp [Health.observe_health, heq, h0]
    · simp [Health.observe_health, heq, h0, Nat.pos_iff_ne_zero.mp h0]
  · intro hflip
    by_cases hne : h.healthy = b
    · rcases Nat.eq_zero_or_pos h.health_counter with h0 | h0 <;>
        simp [Health.observe_health, hne, h0] at hflip
    · by_cases hth : t ≤ h.health_counter + 1
      · simp [Health.observe_health, hne, hth]
      · simp [Health.observe_health, hne, hth] at hflip

/-- Witness for C3 at a concrete input. -/
theorem c3_observe_health_hysteresis_witness :
    Health.start.healthy ≠ false ∧
    Health.start.observe_health false 1 = ({ healthy := false, health_counter := 0 }, true) :=
  ⟨by decide, (c3_observe_health_hysteresis Health.start false 1).1 (by decide)⟩

/-- C10: observe_health reports true exactly when the stored healthy flag
changes, and with a positive flip_threshold the stored counter afterwards is
strictly below the threshold: either 0, or the previous counter plus one
while still below the threshold. -/
theorem c10_observe_health_invariants (h : Health) (b : Bool) (t : Nat) (ht : 1 ≤ t) :
    ((h.observe_health b t).2 = true ↔ (h.observe_health b t).1.healthy ≠ h.healthy) ∧
    (h.observe_health b t).1.health_counter < t ∧
    ((h.observe_health b t).1.health_counter = 0 ∨
      ((h.observe_health b t).1.health_counter = h.health_counter + 1 ∧
        h.health_counter + 1 < t)) := by
  unfold Health.observe_health
  by_cases hne : h.healthy = b
  · rcases Nat.eq_zero_or_pos h.health_counter with h0 | h0
    · simp [hne, h0]
      omega
    · simp [hne, h0, Nat.pos_iff_ne_zero.mp h0]
      omega
  · by_cases hth : t ≤ h.health_counter + 1
    · simp [hne, hth]
      constructor
      · intro hcontra
        exact hne hcontra.symm
      · omega
    · simp [hne, hth]
      omega

/-- Witness for C10 at a concrete input. -/
theorem c10_observe_health_invariants_witness :
    1 ≤ 2 ∧
    (((Health.start.observe_health false 2).2 = true ↔
        (Health.start.observe_health false 2).1.healthy ≠ Health.start.healthy) ∧
      (Health.start.observe_health false 2).1.health_counter < 2 ∧
      ((Health.start.observe_health false 2).1.health_counter = 0 ∨
        ((Health.start.observe_health false 2).1.health_counter =
            Health.start.health_counter + 1 ∧
          Health.start.health_counter + 1 < 2))) :=
  ⟨by decide, c10_observe_health_invariants Health.start false 2 (by decide)⟩

theorem lookupHealth_updateHealth_isSome (b b' : Backend) (f : Health → Health)
    (t : List (Backend × Health)) :
    (lookupHealth (updateHealth b f t) b').isSome = (lookupHealth t b').isSome := by
  induction t with
  | nil => rfl
  | cons kv rest ih =>
    obtain ⟨k, v⟩ := kv
    by_cases hk : k = b <;> by_cases hk' : k = b' <;>
      simp [updateHealth, lookupHealth, hk, hk', ih] <;>
      split <;> simp [ih]

theorem lookupHealth_check_and_report_isSome (b b' : Backend) (hc : HealthCheckCfg)
    (check : Backend → Bool) (t : List (Backend × Health)) :
    (lookupHealth (Backends.check_and_report b hc check t) b').isSome =
      (lookupHealth t b').isSome := by
  unfold Backends.check_and_report
  cases lookupHealth t b <;> simp [lookupHealth_updateHealth_isSome]

theorem lookupHealth_foldl_check_isSome (hc : HealthCheckCfg) (check : Backend → Bool)
    (b' : Backend) (l : List Backend) (t : List (Backend × Health)) :
    (lookupHealth
        (l.foldl (fun t b => Backends.check_and_report b hc check t) t) b').isSome =
      (lookupHealth t b').isSome := by
  induction l generalizing t with
  | nil => rfl
  | cons x xs ih => simp [List.foldl_cons, ih, lookupHealth_check_and_report_isSome]

theorem applyOp_backends (B : Backends) (op : BackendsOp) :
    (B.applyOp op).backends = B.backends := by
  cases op with
  | setHealthCheck hc => rfl
  | runCheck check =>
    simp only [Backends.applyOp, Backends.run_health_check]
    cases B.health_check <;> rfl

theorem applyOp_lookup_isSome (B : Backends) (op : BackendsOp) (b' : Backend) :
    (lookupHealth (B.applyOp op).health b').isSome =
      (lookupHealth B.health b').isSome := by
  cases op with
  | setHealthCheck hc => rfl
  | runCheck check =>
    simp only [Backends.applyOp, Backends.run_health_check]
    cases B.health_check <;> simp [lookupHealth_foldl_check_isSome]

theorem applyOps_lookup_isSome (B : Backends) (ops : List BackendsOp) (b' : Backend) :
    (lookupHealth (B.applyOps ops).health b').isSome =
      (lookupHealth B.health b').isSome := by
  induction ops generalizing B with
  | nil => rfl
  | cons op rest ih =>
    simp [Backends.applyOps, List.foldl_cons] at *
    rw [ih, applyOp_lookup_isSome]

theorem lookupHealth_new (bs : List Backend) (b : Backend) (hb : b ∈ bs) :
    lookupHealth (Backends.new bs).health b = some Health.start := by
  simp only [Backends.new]
  induction bs with
  | nil => cases hb
  | cons x xs ih =>
    rcases List.mem_cons.mp hb with h | h
    · simp [lookupHealth, h.symm]
    · by_cases hx : x = b
      · simp [lookupHealth, hx]
      · simp [lookupHealth, hx, ih h]

theorem applyOps_neverConfigured (bs : List Backend) (ops : List BackendsOp)
    (hops : neverConfigured ops) :
    (Backends.new bs).applyOps ops = Backends.new bs := by
  induction ops with
  | nil => rfl
  | cons op rest ih =>
    have hop : ∀ hc, op ≠ BackendsOp.setHealthCheck hc := hops op (by simp)
    have hrest : neverConfigured rest := fun o ho => hops o (by simp [ho])
    cases op with
    | setHealthCheck hc => exact absurd rfl (hop hc)
    | runCheck check =>
      have hstep : (Backends.new bs).applyOp (.runCheck check) = Backends.new bs := by
        simp [Backends.applyOp, Backends.run_health_check, Backends.new]
      simpa [Backends.applyOps, List.foldl_cons, hstep] using ih hrest

/-- C1: for every backend of the pool and every reachable Backends state,
is_healthy returns the stored healthy flag when a HealthState exists for the
backend's key; when none exists, or when no HealthCheck was ever configured,
it returns true.  (A HealthState in fact always exists for a pool backend:
the table is built from the pool and its key set never changes, which makes
the absent case vacuous.) -/
theorem c1_is_healthy_spec (bs : List Backend) (ops : List BackendsOp) (b : Backend)
    (hb : b ∈ bs) :
    (∀ h, lookupHealth ((Backends.new bs).applyOps ops).health b = some h →
      ((Backends.new bs).applyOps ops).is_healthy b = h.healthy) ∧
    (lookupHealth ((Backends.new bs).applyOps ops).health b = none →
      ((Backends.new bs).applyOps ops).is_healthy b = true) ∧
    (neverConfigured ops → ((Backends.new bs).applyOps ops).is_healthy b = true) := by
  refine ⟨?_, ?_, ?_⟩
  · intro h hl
    simp [Backends.is_healthy, hl]
  · intro hl
    have hs : (lookupHealth ((Backends.new bs).applyOps ops).health b).isSome =
        (lookupHealth (Backends.new bs).health b).isSome :=
      applyOps_lookup_isSome _ ops b
    rw [hl, lookupHealth_new bs b hb] at hs
    simp at hs
  · intro hops
    rw [applyOps_neverConfigured bs ops hops]
    simp [Backends.is_healthy, lookupHealth_new bs b hb, Health.start]

/-- Witness for C1 at a concrete input: one-backend pool, no operations. -/
theorem c1_is_healthy_spec_witness :
    ((Backends.new [Backend.mk "1.0.0.1" 100]).applyOps []).is_healthy
      (Backend.mk "1.0.0.1" 100) = true :=
  (c1_is_healthy_spec [Backend.mk "1.0.0.1" 100] [] (Backend.mk "1.0.0.1" 100)
      (by simp)).2.2 (by intro op hop; simp at hop)

theorem selectLoopCalls_le {σ : Type} (step : σ → Option Backend × σ)
    (healthy : Backend → Bool) (n : Nat) (s : σ) :
    selectLoopCalls step healthy n s ≤ n := by
  induction n generalizing s with
  | zero => exact Nat.le_refl 0
  | succ n ih =>
    cases hstep : step s with
    | mk ob s' =>
      cases ob with
      | none =>
        simp only [selectLoopCalls, hstep]
        omega
      | some b =>
        cases hb : healthy b with
        | true =>
          simp only [selectLoopCalls, hstep, hb, if_true]
          omega
        | false =>
          simp only [selectLoopCalls, hstep, hb, Bool.false_eq_true, if_false]
          have := ih s'
          omega

theorem selectLoop_eq_find {σ : Type} (step : σ → Option Backend × σ)
    (healthy : Backend → Bool) (n : Nat) (s : σ) :
    selectLoop step healthy n s = (selectCandidates step n s).find? healthy := by
  induction n generalizing s with
  | zero => rfl
  | succ n ih =>
    simp only [selectLoop, selectCandidates]
    cases hstep : step s with
    | mk ob s' =>
      cases ob with
      | none => rfl
      | some b =>
        by_cases hb : healthy b
        · simp [hb, List.find?_cons_of_pos]
        · simp [hb, List.find?_cons_of_neg, ih]

/-- C2: select_with makes at most max_iterations calls to the strategy's
get_next, returns the first candidate produced that is healthy, and returns
none when every candidate examined was unhealthy or the strategy returned
none; in particular, with every pool backend unhealthy and a strategy whose
candidates come from the pool, it terminates with none.  next() is
select_with over the pool size (cast to u16). -/
theorem c2_select_with_spec {σ : Type} [Strategy σ] (lb : LoadBalancer σ) (n : Nat) :
    selectLoopCalls Strategy.get_next (fun b => lb.backends.is_healthy b) n lb.strategy ≤ n ∧
    lb.select_with n =
      (selectCandidates (Strategy.get_next (σ := σ)) n lb.strategy).find?
        (fun b => lb.backends.is_healthy b) ∧
    ((∀ b ∈ selectCandidates (Strategy.get_next (σ := σ)) n lb.strategy,
        lb.backends.is_healthy b = false) → lb.select_with n = none) ∧
    ((∀ b ∈ lb.backends.backends, lb.backends.is_healthy b = false) →
      (∀ b ∈ selectCandidates (Strategy.get_next (σ := σ)) n lb.strategy,
        b ∈ lb.backends.backends) →
      lb.select_with n = none) ∧
    lb.next = lb.select_with (lb.backends.backends.length % 65536) := by
  have hfind : lb.select_with n =
      (selectCandidates (Strategy.get_next (σ := σ)) n lb.strategy).find?
        (fun b => lb.backends.is_healthy b) :=
    selectLoop_eq_find _ _ n lb.strategy
  refine ⟨selectLoopCalls_le _ _ n lb.strategy, hfind, ?_, ?_, rfl⟩
  · intro hall
    rw [hfind, List.find?_eq_none]
    intro b hb
    simp [hall b hb]
  · intro hpool hsub
    rw [hfind, List.find?_eq_none]
    intro b hb
    simp [hpool b (hsub b hb)]

/-- Witness for C2 at a concrete input: the one-backend all-unhealthy pool. -/
theorem c2_select_with_spec_witness : lbAllUnhealthy.select_with 1 = none :=
  (c2_select_with_spec lbAllUnhealthy 1).2.2.2.1 (by decide) (by decide)

theorem rr_nthNext_nil (c k : Nat) :
    nthNext RoundRobin.get_next { backends := [], current := c } k = none := by
  induction k generalizing c with
  | zero => rfl
  | succ k ih =>
    simp only [nthNext]
    exact ih c

theorem rr_nthNext_formula (bs : List Backend) (hne : bs ≠ []) (c k : Nat) :
    nthNext RoundRobin.get_next { backends := bs, current := c } k =
      bs.get? ((c + k) % bs.length) := by
  have hie : bs.isEmpty = false := by
    cases bs with
    | nil => exact absurd rfl hne
    | cons x xs => rfl
  induction k generalizing c with
  | zero =>
    simp [nthNext, RoundRobin.get_next, hie]
  | succ k ih =>
    simp only [nthNext, RoundRobin.get_next, hie, Bool.false_eq_true, if_false]
    rw [ih (c + 1)]
    have harg : c + 1 + k = c + (k + 1) := by omega
    rw [harg]

theorem range_map_get?_eq (bs : List Backend) :
    (List.range bs.length).map (fun i => bs.get? i) = bs.map some := by
  induction bs with
  | nil => rfl
  | cons x xs ih =>
    simp only [List.length_cons, List.range_succ_eq_map, List.map_cons, List.map_map]
    refine congrArg₂ _ rfl ?_
    calc (List.range xs.length).map ((fun i => (x :: xs).get? i) ∘ Nat.succ)
        = (List.range xs.length).map (fun i => xs.get? i) := by
          apply List.map_congr_left
          intro i _
          rfl
      _ = xs.map some := ih

theorem range_map_add_mod_perm (N k : Nat) (hN : 0 < N) :
    ((List.range N).map fun i => (k + i) % N).Perm (List.range N) := by
  apply List.perm_of_nodup_nodup_toFinset_eq
  · apply List.Nodup.map_on ?_ (List.nodup_range N)
    intro x hx y hy hxy
    simp only [List.mem_range] at hx hy
    have hmx : x % N = y % N := Nat.ModEq.add_left_cancel' k hxy
    rwa [Nat.mod_eq_of_lt hx, Nat.mod_eq_of_lt hy] at hmx
  · exact List.nodup_range N
  · ext j
    simp only [List.mem_toFinset, List.mem_map, List.mem_range]
    constructor
    · rintro ⟨i, hi, rfl⟩
      exact Nat.mod_lt _ hN
    · intro hj
      refine ⟨(j + (N - k % N)) % N, Nat.mod_lt _ hN, ?_⟩
      have hsum : k + (j + (N - k % N)) = N * (k / N) + N + j := by
        have hdm := Nat.div_add_mod k N
        have hle : k % N ≤ N := le_of_lt (Nat.mod_lt k hN)
        omega
      have hmod : (k + (j + (N - k % N)) % N) % N = (k + (j + (N - k % N))) % N :=
        (Nat.mod_modEq (j + (N - k % N)) N).add_left k
      calc (k + (j + (N - k % N)) % N) % N
          = (k + (j + (N - k % N))) % N := hmod
        _ = (N * (k / N) + N + j) % N := by rw [hsum]
        _ = (N * (k / N + 1) + j) % N := by rw [Nat.mul_add, Nat.mul_one]
        _ = j % N := Nat.mul_add_mod N (k / N + 1) j
        _ = j := Nat.mod_eq_of_lt hj

/-- C7: RoundRobin with the cursor starting at 0: the (k+1)-st get_next call
(0-indexed k) returns pool[k mod N], so over any N consecutive calls every
backend is returned exactly once, in pool order, cycling indefinitely; the
empty pool always yields none. -/
theorem c7_round_robin_order (bs : List Backend) :
    (bs ≠ [] → ∀ k, nthNext RoundRobin.get_next (RoundRobin.build bs) k =
      bs.get? (k % bs.length)) ∧
    (bs ≠ [] → ∀ k,
      ((List.range bs.length).map
          fun i => nthNext RoundRobin.get_next (RoundRobin.build bs) (k + i)).Perm
        (bs.map some)) ∧
    (bs = [] → ∀ k, nthNext RoundRobin.get_next (RoundRobin.build bs) k = none) := by
  refine ⟨?_, ?_, ?_⟩
  · intro hne k
    simpa using rr_nthNext_formula bs hne 0 k
  · intro hne k
    have hN : 0 < bs.length := List.length_pos.mpr hne
    have hmap : ((List.range bs.length).map
        fun i => nthNext RoundRobin.get_next (RoundRobin.build bs) (k + i)) =
        ((List.range bs.length).map fun i => (k + i) % bs.length).map
          (fun j => bs.get? j) := by
      rw [List.map_map]
      apply List.map_congr_left
      intro i _
      simpa using rr_nthNext_formula bs hne 0 (k + i)
    rw [hmap, ← range_map_get?_eq bs]
    exact (range_map_add_mod_perm bs.length k hN).map _
  · rintro rfl k
    exact rr_nthNext_nil 0 k

/-- Witness for C7 at a concrete input: two backends, third call wraps to
the first backend. -/
theorem c7_round_robin_order_witness :
    nthNext RoundRobin.get_next
        (RoundRobin.build [Backend.mk "a" 100, Backend.mk "b" 100]) 2 =
      [Backend.mk "a" 100, Backend.mk "b" 100].get? (2 % 2) :=
  (c7_round_robin_order [Backend.mk "a" 100, Backend.mk "b" 100]).1 (by simp) 2

theorem foldl_max_const (w : Nat) (l : List Nat) :
    ∀ a : Nat, l ≠ [] → (∀ x ∈ l, x = w) → l.foldl Nat.max a = Nat.max a w := by
  induction l with
  | nil =>
    intro a h _
    exact absurd rfl h
  | cons x xs ih =>
    intro a _ hall
    have hx : x = w := hall x (List.mem_cons_self x xs)
    by_cases hxs : xs = []
    · subst hxs hx
      rfl
    · have hall' : ∀ y ∈ xs, y = w := fun y hy => hall y (List.mem_cons_of_mem x hy)
      simp only [List.foldl_cons]
      rw [ih (Nat.max a x) hxs hall', hx]
      simp only [Nat.max_def]
      split <;> (try split) <;> omega

theorem compute_weighted_all_equal (bs : List Backend) (w : Nat) (hne : bs ≠ [])
    (hw : ∀ b ∈ bs, b.weight = w) :
    compute_weighted bs = List.range bs.length := by
  have hmape : bs.map Backend.weight ≠ [] := by simp [hne]
  have hall : ∀ x ∈ bs.map Backend.weight, x = w := by
    intro x hx
    rcases List.mem_map.mp hx with ⟨b, hb, rfl⟩
    exact hw b hb
  have hmax : (bs.map Backend.weight).foldl Nat.max 0 = w := by
    rw [foldl_max_const w _ 0 hmape hall]
    simp [Nat.max_def]
  have hcond : ((bs.map Backend.weight).all fun x => x == w) = true := by
    rw [List.all_eq_true]
    intro x hx
    exact beq_iff_eq.mpr (hall x hx)
  simp only [compute_weighted, hmax, hcond, if_true]

theorem wrr_equal_weights_cursor (bs : List Backend) (hne : bs ≠ []) (c k : Nat) :
    nthNext WeightedRoundRobin.get_next
        { backends := bs, weighted := List.range bs.length, current_index := c } k =
      nthNext RoundRobin.get_next { backends := bs, current := c } k := by
  have hie : bs.isEmpty = false := by
    cases bs with
    | nil => exact absurd rfl hne
    | cons x xs => rfl
  have hN : 0 < bs.length := List.length_pos.mpr hne
  induction k generalizing c with
  | zero =>
    simp only [nthNext, WeightedRoundRobin.get_next, RoundRobin.get_next, hie,
      Bool.false_eq_true, if_false, List.length_range]
    rw [List.getD_eq_getElem?_getD, List.getElem?_range (Nat.mod_lt c hN)]
    rfl
  | succ k ih =>
    simp only [nthNext, WeightedRoundRobin.get_next, RoundRobin.get_next, hie,
      Bool.false_eq_true, if_false]
    exact ih (c + 1)

/-- C6: with a non-empty pool whose weights are all equal, the precomputed
weighted sequence is every index exactly once in order, and the
WeightedRoundRobin get_next call sequence coincides with plain RoundRobin's
over the same list. -/
theorem c6_wrr_equal_weights (bs : List Backend) (w : Nat) (hne : bs ≠ [])
    (hw : ∀ b ∈ bs, b.weight = w) :
    compute_weighted bs = List.range bs.length ∧
    ∀ k, nthNext WeightedRoundRobin.get_next (WeightedRoundRobin.build bs) k =
      nthNext RoundRobin.get_next (RoundRobin.build bs) k := by
  have hcw : compute_weighted bs = List.range bs.length :=
    compute_weighted_all_equal bs w hne hw
  refine ⟨hcw, fun k => ?_⟩
  have hbuild : WeightedRoundRobin.build bs =
      { backends := bs, weighted := List.range bs.length, current_index := 0 } := by
    simp [WeightedRoundRobin.build, hcw]
  rw [hbuild]
  exact wrr_equal_weights_cursor bs hne 0 k

/-- Witness for C6 at a concrete input: three backends of weight 100. -/
theorem c6_wrr_equal_weights_witness :
    compute_weighted
        [Backend.mk "1.0.0.1" 100, Backend.mk "1.0.0.2" 100, Backend.mk "1.0.0.3" 100] =
      List.range 3 ∧
    nthNext WeightedRoundRobin.get_next
        (WeightedRoundRobin.build
          [Backend.mk "1.0.0.1" 100, Backend.mk "1.0.0.2" 100, Backend.mk "1.0.0.3" 100]) 4 =
      nthNext RoundRobin.get_next
        (RoundRobin.build
          [Backend.mk "1.0.0.1" 100, Backend.mk "1.0.0.2" 100, Backend.mk "1.0.0.3" 100]) 4 :=
  ⟨(c6_wrr_equal_weights _ 100 (by simp) (by decide)).1,
    (c6_wrr_equal_weights _ 100 (by simp) (by decide)).2 4⟩

/-- C4, the code evaluated at a failing input: for the two-backend pool with
weights [200, 100] (gcd 100), compute_weighted yields [0, 1]: backend 0 gets
one slot per pass instead of weight/gcd = 2, so the sequence is not
weight-proportional.  The precompute loop advances its index before the
first test, so index 0 is never examined at current weight max_weight, and
the maximum-weight backend loses one slot per pass whenever it sits at
position 0 (listed the other way round, weights [100, 200] do produce the
proportional [1, 0, 1]). -/
theorem c4_compute_weighted_not_proportional :
    compute_weighted [Backend.mk "1.0.0.1" 200, Backend.mk "1.0.0.2" 100] = [0, 1] ∧
    (compute_weighted [Backend.mk "1.0.0.1" 200, Backend.mk "1.0.0.2" 100]).count 0 = 1 ∧
    (Backend.mk "1.0.0.1" 200).weight / 100 = 2 ∧
    compute_weighted [Backend.mk "1.0.0.2" 100, Backend.mk "1.0.0.1" 200] = [1, 0, 1] := by
  have h : compute_weighted [Backend.mk "1.0.0.1" 200, Backend.mk "1.0.0.2" 100] = [0, 1] := by
    simp [compute_weighted, wrrLoop, wrrRound]
    decide
  have h' : compute_weighted [Backend.mk "1.0.0.2" 100, Backend.mk "1.0.0.1" 200] = [1, 0, 1] := by
    simp [compute_weighted, wrrLoop, wrrRound]
    decide
  exact ⟨h, by rw [h]; decide, by decide, h'⟩

theorem foldl_add_shift (l : List Nat) : ∀ a : Nat, l.foldl (· + ·) a = a + l.foldl (· + ·) 0 := by
  induction l with
  | nil => intro a; simp
  | cons x xs ih =>
    intro a
    simp only [List.foldl_cons]
    rw [ih (a + x), ih (0 + x)]
    omega

theorem foldl_add_all_zero (l : List Nat) (h : ∀ x ∈ l, x = 0) :
    l.foldl (· + ·) 0 = 0 := by
  induction l with
  | nil => rfl
  | cons x xs ih =>
    have hx : x = 0 := h x (by simp)
    have hxs := ih fun y hy => h y (by simp [hy])
    simp only [List.foldl_cons, hx]
    rw [foldl_add_shift, hxs]

theorem sampleIndex_pos_weight : ∀ (weights : List Nat) (r : Nat),
    r < weights.foldl (· + ·) 0 → 0 < weights.getD (sampleIndex weights r) 0
  | [], r, hr => by simp at hr
  | w :: rest, r, hr => by
    by_cases hw : r < w
    · simp only [sampleIndex, hw, if_true, List.getD_cons_zero]
      omega
    · have hsum : r < (0 + w) + rest.foldl (· + ·) 0 := by
        rw [List.foldl_cons, foldl_add_shift] at hr
        omega
      have hr' : r - w < rest.foldl (· + ·) 0 := by omega
      simp only [sampleIndex, hw, if_false, List.getD_cons_succ]
      exact sampleIndex_pos_weight rest (r - w) hr'

/-- C5 counterexample: constructing WeightedRandom from a list whose weights
are all 0 does fail: the unwrapped WeightedAliasIndex constructor reports
AllWeightsZero, which the Rust code turns into a construction-time panic
instead of guarding it. -/
theorem c5_build_all_zero_fails :
    WeightedRandom.build [Backend.mk "1.0.0.1" 0] =
      Except.error WeightedError.allWeightsZero ∧
    (WeightedRandom.build [Backend.mk "1.0.0.1" 0]).isOk = false :=
  ⟨rfl, rfl⟩

/-- C5 amended: a weight-0 backend is never returned by WeightedRandom's
get_next (every draw below the total weight lands on an index of positive
weight), and build from a non-empty list whose weights are all 0 fails with
AllWeightsZero (a panic through the unwrap in Rust) rather than being
guarded. -/
theorem c5_weighted_random_zero_weights (bs : List Backend) (r : Nat) :
    (∀ s, WeightedRandom.build bs = Except.ok s →
      r < (bs.map Backend.weight).foldl (· + ·) 0 →
      ∀ b, s.get_next r = some b → 0 < b.weight) ∧
    (bs ≠ [] → (∀ b ∈ bs, b.weight = 0) →
      WeightedRandom.build bs = Except.error WeightedError.allWeightsZero) := by
  constructor
  · intro s hok hr b hb
    rw [WeightedRandom.build, weightedAliasIndexNew] at hok
    split at hok
    · simp [Except.map] at hok
    · split at hok
      · simp [Except.map] at hok
      · simp only [Except.map] at hok
        cases hok
        rw [WeightedRandom.get_next] at hb
        split at hb
        · cases hb
        · have hpos := sampleIndex_pos_weight (bs.map Backend.weight) r hr
          rw [List.get?_eq_getElem?] at hb
          rw [List.getD_eq_getElem?_getD, List.getElem?_map, hb] at hpos
          exact hpos
  · intro hne hzero
    have hmape : (bs.map Backend.weight).isEmpty = false := by
      cases bs with
      | nil => exact absurd rfl hne
      | cons x xs => rfl
    have hsum : (bs.map Backend.weight).foldl (· + ·) 0 = 0 := by
      apply foldl_add_all_zero
      intro x hx
      rcases List.mem_map.mp hx with ⟨b, hb, rfl⟩
      exact hzero b hb
    rw [WeightedRandom.build, weightedAliasIndexNew]
    simp [hmape, hsum, Except.map]

/-- Witness for C5 at a concrete input: a one-backend pool of weight 7 and
the draw r = 0. -/
theorem c5_weighted_random_zero_weights_witness :
    0 < (Backend.mk "1.0.0.1" 7).weight :=
  (c5_weighted_random_zero_weights [Backend.mk "1.0.0.1" 7] 0).1
    { backends := [Backend.mk "1.0.0.1" 7], weights := { weights := [7] } }
    rfl (by decide) (Backend.mk "1.0.0.1" 7) (by decide)

/-- C8: when request_filter does not short-circuit and upstream_addr yields
no target, process_request returns the 503 Service Unavailable response
(empty body) and invokes no later stage: the trace stops at upstreamAddr.
A request_filter rejection is distinct: the supplied response is returned
verbatim with only requestFilter invoked. -/
theorem c8_process_request_503 {Ctx υ θ β ρ ε : Type} [Inhabited ρ]
    (p : Proxy Ctx υ θ β ρ ε)
    (client : RequestParts υ θ → Except ε (ResponseParts ρ × β))
    (latency : Nat) (request : RequestParts υ θ) :
    ((p.request_filter request p.new_ctx).2 = none →
      (p.upstream_addr request (p.request_filter request p.new_ctx).1).2 = none →
      process_request p client latency request =
        (errorResponse 503, [Stage.requestFilter, Stage.upstreamAddr]) ∧
      (errorResponse 503 : Response β ρ).parts.status = 503 ∧
      (errorResponse 503 : Response β ρ).body = Body.empty ∧
      ∀ st ∈ (process_request p client latency request).2,
        st ≠ Stage.upstreamRequestFilter ∧ st ≠ Stage.forward ∧
          st ≠ Stage.failToConnect ∧ st ≠ Stage.upstreamLatency ∧
          st ≠ Stage.responseFilter) ∧
    (∀ resp, (p.request_filter request p.new_ctx).2 = some resp →
      process_request p client latency request = (resp, [Stage.requestFilter])) := by
  constructor
  · intro h1 h2
    rcases hrf : p.request_filter request p.new_ctx with ⟨c1, o1⟩
    rw [hrf] at h1 h2
    dsimp only at h1 h2
    subst h1
    rcases hua : p.upstream_addr request c1 with ⟨c2, o2⟩
    rw [hua] at h2
    dsimp only at h2
    subst h2
    have hout : process_request p client latency request =
        (errorResponse 503, [Stage.requestFilter, Stage.upstreamAddr]) := by
      simp only [process_request, hrf, hua]
    refine ⟨hout, rfl, rfl, ?_⟩
    rw [hout]
    intro st hst
    simp only [List.mem_cons, List.not_mem_nil, or_false] at hst
    rcases hst with rfl | rfl <;>
      exact ⟨by decide, by decide, by decide, by decide, by decide⟩
  · intro resp h1
    rcases hrf : p.request_filter request p.new_ctx with ⟨c1, o1⟩
    rw [hrf] at h1
    dsimp only at h1
    subst h1
    simp only [process_request, hrf]

/-- Witness for C8 at a concrete input: the no-route proxy yields the 503
response and stops after upstreamAddr. -/
theorem c8_process_request_503_witness :
    process_request proxyNoRoute
        (fun _ => Except.ok ({ status := 200, rest := () }, ())) 0
        { uri := 1, rest := () } =
      (errorResponse 503, [Stage.requestFilter, Stage.upstreamAddr]) :=
  ((c8_process_request_503 proxyNoRoute
      (fun _ => Except.ok ({ status := 200, rest := () }, ())) 0
      { uri := 1, rest := () }).1 rfl rfl).1

/-- C9: the background loop performs exactly one health check and then
terminates, both when no interval is configured and when an interval is
configured but the shutdown signal is set by the first wake-up time
t0 + interval (the loop exits there without another check).  Quantifying
over all sufficient fuel shows genuine termination of the loop. -/
theorem c9_background_loop_once (shutdown : Nat → Bool) (t0 : Nat)
    (h0 : shutdown t0 = false) :
    (∀ fuel, 1 ≤ fuel → bgStart shutdown none t0 fuel = some 1) ∧
    (∀ d, shutdown (t0 + d) = true →
      ∀ fuel, 2 ≤ fuel → bgStart shutdown (some d) t0 fuel = some 1) := by
  constructor
  · intro fuel hfuel
    obtain ⟨fuel', rfl⟩ : ∃ k, fuel = k + 1 := ⟨fuel - 1, by omega⟩
    simp [bgStart, bgLoop, h0]
  · intro d hd fuel hfuel
    obtain ⟨fuel', rfl⟩ : ∃ k, fuel = k + 2 := ⟨fuel - 2, by omega⟩
    simp [bgStart, bgLoop, h0, hd]

/-- Witness for C9 at a concrete input: shutdown fires at time 5, interval
5 seconds, start at time 0, fuel 2. -/
theorem c9_background_loop_once_witness :
    bgStart (fun t => decide (5 ≤ t)) (some 5) 0 2 = some 1 :=
  (c9_background_loop_once (fun t => decide (5 ≤ t)) 0 (by decide)).2 5 (by decide)
    2 (by decide)

end Yapf
